import Mathlib

/-!
# Verification of libyang's input-handle layer (`src/parser.c`)

A shallow embedding of the input-acquisition layer: the polymorphic input
handle `ly_in`, its constructors (`ly_in_new_fd`, `ly_in_new_file`,
`ly_in_new_memory`, `ly_in_new_filepath`), its get-or-replace mutators
(`ly_in_fd`, `ly_in_file`, `ly_in_memory`, `ly_in_filepath`), the cursor
primitives (`ly_in_reset`, `ly_read`) and the destructor (`ly_in_free`).

Modelling conventions:
* Pointers are abstract addresses (`Nat`); the backing bytes of a handle's
  view are carried explicitly as `data : List Nat`, indexed from the view's
  start; reading past the end of `data` yields the byte 0, reflecting the
  NUL-termination guarantee of both memory inputs and mapped views.
* `current` is represented by the offset `pos` from `start`, so the C
  pointer `in->current` is the address `start_addr + pos`.
* The `method` union of `struct ly_in` is flattened into fields `mfd`
  (the descriptor, which in C is shared between `method.fd` and
  `method.fpath.fd`, the first member of both union arms), `mf` (the
  `FILE *` stream, as an opaque id) and `mfpath` (the owned path copy,
  which occupies union bytes not overwritten by writes to `method.fd`).
* External OS calls (`open`, `fileno`, the mapping primitive) and
  allocation success are supplied by an environment `Env`; resource
  actions (unmap, close, fclose, free) are recorded as an `Effect` trace
  returned alongside each function's result.
* C `NULL` pointers become `Option`; `ssize_t`/`int` become `Int`
  (the quantities involved are tiny compared to the machine width, so
  two's-complement wraparound never triggers on the modelled paths).
-/

/-- The `LY_IN_TYPE` enumeration from `parser.h`: the medium tag of an
input handle, with `LY_IN_ERROR` as the sentinel-only error value. -/
inductive LY_IN_TYPE where
  | error
  | fd
  | file
  | filepath
  | memory
deriving DecidableEq, Repr

/-- Resource actions performed by the input-handle functions, recorded in
order of execution: unmapping a view, closing a descriptor, closing a
stream, freeing an owned string or buffer, freeing the handle record, and
a message sent to the logging sink. -/
inductive Effect where
  | munmapE (addr : Nat) (len : Nat)
  | closeFd (fd : Int)
  | fcloseE (f : Nat)
  | freeStr (s : String)
  | freeBuf (addr : Nat)
  | freeHandle
  | logE (msg : String)
deriving DecidableEq, Repr

/-- Outcome of the mapping primitive on a descriptor: hard failure
(nonzero `LY_ERR`), success with a NULL address (the distinguished
empty-file outcome), or success with a mapped view (base address plus the
mapped bytes; the view's length is the number of bytes). -/
inductive MmapResult where
  | fail
  | empty
  | ok (addr : Nat) (data : List Nat)
deriving DecidableEq, Repr

/-- The external environment: results of `open(path, O_RDONLY)`, of the
mapping primitive on each descriptor, of `fileno` on each stream id, and
whether allocation succeeds. -/
structure Env where
  openFd : String → Int
  mmap : Int → MmapResult
  fileno : Nat → Int
  callocOk : Bool

/-- The input handle `struct ly_in` (from `parser_internal.h`, observed
through its uses in `parser.c`): medium tag, flattened `method` union
(`mfd`/`mf`/`mfpath`), the view's base address and bytes, the cursor
offset `pos` (so `current = start_addr + pos`), and the mapped length. -/
structure ly_in where
  type : LY_IN_TYPE
  mfd : Int
  mf : Nat
  mfpath : String
  start_addr : Nat
  data : List Nat
  pos : Nat
  length : Nat
deriving DecidableEq, Repr

/-- `LY_SUCCESS` of the `LY_ERR` enumeration. -/
def LY_SUCCESS : Int := 0

/-- Modelled from the spec: the `LY_ERR` code `LY_EINVAL` (declared in
`log.h`, which is not among the sources) is a positive error code; the
read primitive returns its negation on an invalid handle. -/
def LY_EINVAL : Int := 3

/-- Modelled from the spec: `LY_CHECK_ARG_RET` (a macro of `common.h`,
not among the sources) reports an invalid-argument error to the logging
sink before returning the designated sentinel; this is the log effect it
emits. -/
def logArg : List Effect := [Effect.logE "Invalid argument."]

/-- Modelled from the spec: the mapping primitive `ly_mmap` (defined
outside the given sources) acquires a read-only view of a descriptor's
full contents; it reports system-call failure to the logging sink, and
signals an empty file as a distinguished non-fatal success with a NULL
address. -/
def ly_mmap (env : Env) (fd : Int) : MmapResult × List Effect :=
  match env.mmap fd with
  | MmapResult.fail => (MmapResult.fail, [Effect.logE "mmap failed."])
  | r => (r, [])

/-- Byte at offset `i` of a view: past-the-end reads yield the NUL byte 0
(memory inputs are NUL-terminated by contract, mapped views by the
mapping primitive). -/
def byteAt (d : List Nat) (i : Nat) : Nat := d.getD i 0

/-- The bytes at offsets `p, p+1, ..., p+i-1` of a view, in increasing
address order: what `memcpy(buf, start + p, i)` transfers. -/
def seg (d : List Nat) (p : Nat) (i : Nat) : List Nat :=
  (List.range i).map (fun j => byteAt d (p + j))

/-- The forward-scan loop of `ly_read`: starting at offset `p`, count how
many of the next `n` bytes precede the NUL terminator. -/
def scanF (d : List Nat) (p : Nat) : Nat → Nat
  | 0 => 0
  | n + 1 => if byteAt d p = 0 then 0 else scanF d (p + 1) n + 1

/-- `ly_read` from `parser.c`: the bidirectional read/seek primitive.
Takes the handle (NULL allowed), whether a destination buffer was
supplied, and the signed count; returns the `ssize_t` result, the updated
handle, and the bytes copied into the buffer (empty when no buffer). -/
def ly_read (in0 : Option ly_in) (buf : Bool) (count : Int) :
    Int × Option ly_in × List Nat :=
  match in0 with
  | none => (LY_EINVAL * -1, none, [])
  | some s =>
    if s.type = LY_IN_TYPE.error then (LY_EINVAL * -1, some s, [])
    else if 0 < count then
      if byteAt s.data s.pos = 0 then (0, some s, [])
      else
        let i := scanF s.data s.pos count.toNat
        ((i : Int), some { s with pos := s.pos + i },
          if buf then seg s.data s.pos i else [])
    else if count < 0 then
      let i := min (-count).toNat s.pos
      ((i : Int), some { s with pos := s.pos - i },
        if buf then seg s.data (s.pos - i) i else [])
    else (0, some s, [])

/-- `ly_in_reset` from `parser.c`: rewind the cursor to the start of the
view. Returns the `LY_ERR` result and the updated handle. -/
def ly_in_reset (in0 : Option ly_in) : Int × Option ly_in :=
  match in0 with
  | none => (LY_EINVAL, none)
  | some s => (LY_SUCCESS, some { s with pos := 0 })

/-- `ly_in_new_memory` from `parser.c`: build a Memory handle aliasing a
caller-owned NUL-terminated buffer (given as address plus bytes). -/
def ly_in_new_memory (env : Env) (str : Option (Nat × List Nat)) :
    Option ly_in × List Effect :=
  match str with
  | none => (none, logArg)
  | some (a, d) =>
    if env.callocOk then
      (some { type := LY_IN_TYPE.memory, mfd := 0, mf := 0, mfpath := "",
              start_addr := a, data := d, pos := 0, length := 0 }, [])
    else (none, [Effect.logE "Memory allocation failed."])

/-- `ly_in_memory` from `parser.c`: get or replace the memory buffer.
Returns the `const char *` result (an address, `none` for NULL) and the
updated handle. -/
def ly_in_memory (in0 : Option ly_in) (str : Option (Nat × List Nat)) :
    Option Nat × Option ly_in :=
  match in0 with
  | none => (none, none)
  | some s =>
    if s.type = LY_IN_TYPE.memory then
      let data := s.start_addr + s.pos
      match str with
      | some (a, d) => (some data, some { s with start_addr := a, data := d, pos := 0 })
      | none => (some data, some s)
    else (none, some s)

/-- `ly_in_new_fd` from `parser.c`: construct a Descriptor handle by
mapping the descriptor; rejects a negative descriptor, a failed mapping,
and the empty-file outcome; releases the fresh mapping if allocation of
the handle record fails. -/
def ly_in_new_fd (env : Env) (fd : Int) : Option ly_in × List Effect :=
  if fd < 0 then (none, logArg)
  else
    match ly_mmap env fd with
    | (MmapResult.fail, e) => (none, e)
    | (MmapResult.empty, e) => (none, e ++ [Effect.logE "Empty input file."])
    | (MmapResult.ok addr d, e) =>
      if env.callocOk then
        (some { type := LY_IN_TYPE.fd, mfd := fd, mf := 0, mfpath := "",
                start_addr := addr, data := d, pos := 0, length := d.length }, e)
      else
        (none, e ++ [Effect.logE "Memory allocation failed.",
                     Effect.munmapE addr d.length])

/-- `ly_in_fd` from `parser.c`: get or replace the descriptor of a
Descriptor handle. With `fd = -1`, a pure accessor for the stored
descriptor; otherwise maps the new descriptor first and only on success
releases the old view and updates the fields, returning the previous
descriptor. Returns the `int` result, updated handle, and effects. -/
def ly_in_fd (env : Env) (in0 : Option ly_in) (fd : Int) :
    Int × Option ly_in × List Effect :=
  match in0 with
  | none => (-1, none, logArg)
  | some s =>
    if s.type = LY_IN_TYPE.fd then
      let prev_fd := s.mfd
      if fd ≠ -1 then
        match ly_mmap env fd with
        | (MmapResult.fail, e) => (-1, some s, e)
        | (MmapResult.empty, e) =>
          (-1, some s, e ++ [Effect.logE "Empty input file."])
        | (MmapResult.ok addr d, e) =>
          (prev_fd,
           some { s with mfd := fd, start_addr := addr, data := d, pos := 0,
                         length := d.length },
           e ++ [Effect.munmapE s.start_addr s.length])
      else (prev_fd, some s, [])
    else (-1, some s, logArg)

/-- `ly_in_new_file` from `parser.c`: construct a Stream handle by
delegating to `ly_in_new_fd` on the stream's underlying descriptor, then
relabelling the handle as a Stream. -/
def ly_in_new_file (env : Env) (f : Option Nat) : Option ly_in × List Effect :=
  match f with
  | none => (none, logArg)
  | some f0 =>
    match ly_in_new_fd env (env.fileno f0) with
    | (none, e) => (none, e)
    | (some h, e) => (some { h with type := LY_IN_TYPE.file, mf := f0 }, e)

/-- `ly_in_file` from `parser.c`: get or replace the stream of a Stream
handle. With a NULL stream, a pure accessor. Otherwise temporarily
relabels the handle as a Descriptor handle (storing the current stream's
descriptor) to reuse `ly_in_fd`, then restores the Stream tag with the
new stream on success or the original stream on failure. Returns the
`FILE *` result (`none` for NULL), updated handle, and effects. -/
def ly_in_file (env : Env) (in0 : Option ly_in) (f : Option Nat) :
    Option Nat × Option ly_in × List Effect :=
  match in0 with
  | none => (none, none, logArg)
  | some s =>
    if s.type = LY_IN_TYPE.file then
      let prev_f := s.mf
      match f with
      | none => (some prev_f, some s, [])
      | some f0 =>
        let s1 := { s with type := LY_IN_TYPE.fd, mfd := env.fileno prev_f }
        match ly_in_fd env (some s1) (env.fileno f0) with
        | (r, some s2, e) =>
          if r = -1 then
            (none, some { s2 with type := LY_IN_TYPE.file, mf := prev_f }, e)
          else
            (some prev_f, some { s2 with type := LY_IN_TYPE.file, mf := f0 }, e)
        | (_, none, e) => (none, none, e)
    else (none, some s, logArg)

/-- `strndup(p, len)` when `len` is nonzero, `strdup(p)` when it is zero,
as used by the filepath constructor and mutator. -/
def strn (p : String) (len : Nat) : String :=
  if len = 0 then p else p.take len

/-- `ly_in_new_filepath` from `parser.c`: duplicate the path, open it
read-only, delegate to `ly_in_new_fd`, and relabel the result as a Path
handle owning the descriptor and the path copy. The open-failure check
is the C expression `!fd`, which tests the descriptor against 0 although
`open` signals failure with -1. -/
def ly_in_new_filepath (env : Env) (filepath : Option String) (len : Nat) :
    Option ly_in × List Effect :=
  match filepath with
  | none => (none, logArg)
  | some p =>
    let fp := strn p len
    let fd := env.openFd fp
    if fd = 0 then
      (none, [Effect.logE "Failed to open file.", Effect.freeStr fp])
    else
      match ly_in_new_fd env fd with
      | (none, e) => (none, e ++ [Effect.freeStr fp])
      | (some h, e) =>
        (some { h with type := LY_IN_TYPE.filepath, mfd := fd, mfpath := fp }, e)

/-- The `const char *` result of `ly_in_filepath`: NULL, the special
`(void *)-1` sentinel, or a path string. -/
inductive FPathRet where
  | null
  | neg1
  | path (s : String)
deriving DecidableEq, Repr

/-- `ly_in_filepath` from `parser.c`: get or replace the path of a Path
handle. With a NULL path, a pure accessor for the stored path string.
Otherwise duplicates and opens the new path (again guarded by the C test
`!fd`), temporarily relabels the handle as a Descriptor handle to reuse
`ly_in_fd`, restores the Path tag, and on success closes the previous
descriptor itself and frees the previous owned path copy. -/
def ly_in_filepath (env : Env) (in0 : Option ly_in) (filepath : Option String)
    (len : Nat) : FPathRet × Option ly_in × List Effect :=
  match in0 with
  | none =>
    ((if filepath.isSome then FPathRet.null else FPathRet.neg1), none, logArg)
  | some s =>
    if s.type = LY_IN_TYPE.filepath then
      match filepath with
      | none => (FPathRet.path s.mfpath, some s, [])
      | some p =>
        let fp := strn p len
        let fd := env.openFd fp
        if fd = 0 then
          (FPathRet.null, some s,
           [Effect.logE "Failed to open file.", Effect.freeStr fp])
        else
          let s1 := { s with type := LY_IN_TYPE.fd }
          match ly_in_fd env (some s1) fd with
          | (prev_fd, some s2, e) =>
            if prev_fd = -1 then
              (FPathRet.null, some { s2 with type := LY_IN_TYPE.filepath },
               e ++ [Effect.freeStr fp])
            else
              (FPathRet.null,
               some { s2 with type := LY_IN_TYPE.filepath, mfd := fd, mfpath := fp },
               e ++ [Effect.closeFd prev_fd, Effect.freeStr s2.mfpath])
          | (_, none, e) => (FPathRet.null, none, e)
    else
      ((if filepath.isSome then FPathRet.null else FPathRet.neg1), some s, logArg)

/-- `ly_in_free` from `parser.c`: the ownership-aware destructor. Returns
the ordered trace of resource actions it performs. -/
def ly_in_free (in0 : Option ly_in) (destroy : Bool) : List Effect :=
  match in0 with
  | none => []
  | some s =>
    if s.type = LY_IN_TYPE.error then [Effect.logE "Internal error."]
    else if destroy then
      (if s.type = LY_IN_TYPE.memory then [Effect.freeBuf s.start_addr]
       else
         [Effect.munmapE s.start_addr s.length] ++
         (if s.type = LY_IN_TYPE.file then [Effect.fcloseE s.mf]
          else
            [Effect.closeFd s.mfd] ++
            (if s.type = LY_IN_TYPE.filepath then [Effect.freeStr s.mfpath]
             else []))) ++ [Effect.freeHandle]
    else
      (if s.type ≠ LY_IN_TYPE.memory then
         [Effect.munmapE s.start_addr s.length] ++
         (if s.type = LY_IN_TYPE.filepath then
            [Effect.closeFd s.mfd, Effect.freeStr s.mfpath]
          else [])
       else []) ++ [Effect.freeHandle]

/-- A sequence of reads applied in order (forward reads for the claims
that use it): returns the final handle state and the total of the
returned byte counts. -/
def runReads (b : Bool) : ly_in → List Int → ly_in × Nat
  | s, [] => (s, 0)
  | s, n :: ns =>
    let t := ly_read (some s) b n
    let s1 := t.2.1.getD s
    let r := runReads b s1 ns
    (r.1, t.1.toNat + r.2)

/-- A Memory handle over the NUL-terminated buffer "ab" at address 100:
the end-to-end fixture used by the concrete witnesses. -/
def wmem : ly_in :=
  { type := LY_IN_TYPE.memory, mfd := 0, mf := 0, mfpath := "",
    start_addr := 100, data := [97, 98, 0], pos := 0, length := 0 }

/-- A Memory handle whose two data bytes contain no NUL, so its content
size is exactly its list length. -/
def wbin : ly_in :=
  { type := LY_IN_TYPE.memory, mfd := 0, mf := 0, mfpath := "",
    start_addr := 100, data := [97, 98], pos := 0, length := 0 }

/-- A Descriptor handle over a 3-byte mapped view. -/
def wfd : ly_in :=
  { type := LY_IN_TYPE.fd, mfd := 3, mf := 0, mfpath := "",
    start_addr := 200, data := [104, 105, 0], pos := 0, length := 3 }

/-- A Stream handle (stream id 7) over a 2-byte mapped view. -/
def wfile : ly_in :=
  { type := LY_IN_TYPE.file, mfd := 4, mf := 7, mfpath := "",
    start_addr := 300, data := [104, 0], pos := 0, length := 2 }

/-- A Path handle owning descriptor 3 and the path copy "old". -/
def wfpath : ly_in :=
  { type := LY_IN_TYPE.filepath, mfd := 3, mf := 0, mfpath := "old",
    start_addr := 50, data := [97, 0], pos := 0, length := 2 }

/-- An environment where every open and mapping succeeds. -/
def env_ok : Env :=
  { openFd := fun _ => 5, mmap := fun _ => MmapResult.ok 400 [120, 121],
    fileno := fun _ => 9, callocOk := true }

/-- An environment where `open` fails (returns -1) on every path. -/
def env_openfail : Env :=
  { openFd := fun _ => -1, mmap := fun _ => MmapResult.fail,
    fileno := fun _ => 0, callocOk := true }

/-- An environment where `open` succeeds with descriptor 3 but every
file turns out to be empty when mapped. -/
def env_emptyfile : Env :=
  { openFd := fun _ => 3, mmap := fun _ => MmapResult.empty,
    fileno := fun _ => 0, callocOk := true }

/-- The forward scan never counts more bytes than requested. -/
lemma scanF_le (d : List Nat) : ∀ (n p : Nat), scanF d p n ≤ n := by
  intro n
  induction n with
  | zero => intro p; simp [scanF]
  | succ n ih =>
    intro p
    simp only [scanF]
    split
    · exact Nat.zero_le _
    · exact Nat.succ_le_succ (ih (p + 1))

/-- Every byte counted by the forward scan precedes the NUL terminator. -/
lemma scanF_before (d : List Nat) :
    ∀ (n p : Nat), ∀ j < scanF d p n, byteAt d (p + j) ≠ 0 := by
  intro n
  induction n with
  | zero => intro p j hj; simp [scanF] at hj
  | succ n ih =>
    intro p j hj
    simp only [scanF] at hj
    by_cases h0 : byteAt d p = 0
    · simp [h0] at hj
    · simp only [h0, if_false] at hj
      match j with
      | 0 => rw [Nat.add_zero]; exact h0
      | j + 1 =>
        have := ih (p + 1) j (by omega)
        simpa [Nat.add_assoc, Nat.add_comm 1 j] using this

/-- When the forward scan stops short of the requested count, it stopped
on the NUL terminator. -/
lemma scanF_stop (d : List Nat) :
    ∀ (n p : Nat), scanF d p n < n → byteAt d (p + scanF d p n) = 0 := by
  intro n
  induction n with
  | zero => intro p h; omega
  | succ n ih =>
    intro p h
    by_cases h0 : byteAt d p = 0
    · simp [scanF, h0]
    · simp only [scanF, h0, if_false] at h ⊢
      have := ih (p + 1) (by omega)
      simpa [Nat.add_assoc, Nat.add_comm 1 _] using this

/-- When no NUL occurs within the requested count, the forward scan
counts the full request. -/
lemma scanF_all (d : List Nat) :
    ∀ (n p : Nat), (∀ j < n, byteAt d (p + j) ≠ 0) → scanF d p n = n := by
  intro n
  induction n with
  | zero => intro p _; simp [scanF]
  | succ n ih =>
    intro p h
    have h0 : byteAt d p ≠ 0 := by
      have := h 0 (Nat.succ_pos n)
      rwa [Nat.add_zero] at this
    have hrec : scanF d (p + 1) n = n := by
      apply ih
      intro j hj
      have := h (j + 1) (by omega)
      simpa [Nat.add_assoc, Nat.add_comm 1 j] using this
    simp [scanF, h0, hrec]

/-- A copy of zero bytes is empty. -/
lemma seg_zero (d : List Nat) (p : Nat) : seg d p 0 = [] := rfl

/-- Copying a view's full length from its start reproduces the view. -/
lemma seg_zero_length (d : List Nat) : seg d 0 d.length = d := by
  induction d with
  | nil => simp [seg]
  | cons a t ih =>
    have hc : ((fun j => byteAt (a :: t) (0 + j)) ∘ Nat.succ) =
        fun j => byteAt t (0 + j) := by
      funext j
      simp [byteAt, Nat.zero_add]
    have ht : List.map (fun j => byteAt t (0 + j)) (List.range t.length) = t := by
      simpa [seg] using ih
    simp only [seg, List.length_cons, List.range_succ_eq_map, List.map_cons,
      List.map_map, hc, ht]
    simp [byteAt]

/-- A forward (nonnegative-count) read of a valid handle returns some
byte count `j` and advances the cursor by exactly `j`. -/
lemma ly_read_fwd_step (s : ly_in) (b : Bool) (n : Int)
    (h : s.type ≠ LY_IN_TYPE.error) (hn : 0 ≤ n) :
    ∃ j : Nat, (ly_read (some s) b n).1 = (j : Int) ∧
      (ly_read (some s) b n).2.1 = some { s with pos := s.pos + j } := by
  rcases eq_or_lt_of_le hn with he | hlt
  · refine ⟨0, ?_, ?_⟩ <;> simp [ly_read, ← he, h]
  · by_cases h0 : byteAt s.data s.pos = 0
    · refine ⟨0, ?_, ?_⟩ <;> simp [ly_read, h, hlt, h0]
    · refine ⟨scanF s.data s.pos n.toNat, ?_, ?_⟩ <;> simp [ly_read, h, hlt, h0]

/-- A sequence of forward reads changes only the cursor, advancing it by
the total of the returned counts. -/
lemma runReads_fwd (b : Bool) (ns : List Int) :
    ∀ s : ly_in, s.type ≠ LY_IN_TYPE.error → (∀ n ∈ ns, 0 ≤ n) →
      ∃ k : Nat, runReads b s ns = ({ s with pos := s.pos + k }, k) := by
  induction ns with
  | nil =>
    intro s _ _
    exact ⟨0, by simp [runReads]⟩
  | cons n ns ih =>
    intro s h hn
    obtain ⟨j, hj1, hj2⟩ := ly_read_fwd_step s b n h (hn n (by simp))
    have h1 : ({ s with pos := s.pos + j } : ly_in).type ≠ LY_IN_TYPE.error := h
    obtain ⟨k, hk⟩ := ih { s with pos := s.pos + j } h1 (fun m hm => hn m (by simp [hm]))
    refine ⟨j + k, ?_⟩
    simp only [runReads, hj2, Option.getD_some, hk, hj1, Int.toNat_natCast]
    simp [Nat.add_assoc]

/-- C1: for every valid (non-NULL, non-Error) handle, `ly_read` with
count 0 changes nothing and returns 0; with positive count it scans
forward from `current` up to the count, stopping early at the NUL
terminator, and returns the number `i` of bytes available before the
count was reached or the terminator was hit, advancing `current` by `i`
and copying those bytes when a buffer is given; with negative count it
scans backward over the magnitude, stopping early at `start`; the result
is never negative for a valid handle, a negative result being reserved
for the invalid-handle error. -/
theorem ly_read_contract (s : ly_in) (b : Bool) (h : s.type ≠ LY_IN_TYPE.error) :
    ly_read (some s) b 0 = (0, some s, []) ∧
    (∀ n : Int, 0 < n → ∃ i : Nat,
      ly_read (some s) b n =
        ((i : Int), some { s with pos := s.pos + i },
         if b then seg s.data s.pos i else []) ∧
      i ≤ n.toNat ∧
      (∀ j < i, byteAt s.data (s.pos + j) ≠ 0) ∧
      (i < n.toNat → byteAt s.data (s.pos + i) = 0)) ∧
    (∀ n : Int, n < 0 →
      ly_read (some s) b n =
        (((min (-n).toNat s.pos : Nat) : Int),
         some { s with pos := s.pos - min (-n).toNat s.pos },
         if b then seg s.data (s.pos - min (-n).toNat s.pos) (min (-n).toNat s.pos)
         else [])) ∧
    (∀ n : Int, 0 ≤ (ly_read (some s) b n).1) ∧
    (∀ (b2 : Bool) (n : Int) (t : ly_in), t.type = LY_IN_TYPE.error →
      (ly_read none b2 n).1 < 0 ∧ (ly_read (some t) b2 n).1 < 0) := by
  have hzero : ly_read (some s) b 0 = (0, some s, []) := by
    simp [ly_read, h]
  have hpos : ∀ n : Int, 0 < n → ∃ i : Nat,
      ly_read (some s) b n =
        ((i : Int), some { s with pos := s.pos + i },
         if b then seg s.data s.pos i else []) ∧
      i ≤ n.toNat ∧
      (∀ j < i, byteAt s.data (s.pos + j) ≠ 0) ∧
      (i < n.toNat → byteAt s.data (s.pos + i) = 0) := by
    intro n hn
    by_cases h0 : byteAt s.data s.pos = 0
    · refine ⟨0, ?_, Nat.zero_le _, by omega, fun _ => by rw [Nat.add_zero]; exact h0⟩
      simp [ly_read, h, hn, h0, seg_zero]
    · refine ⟨scanF s.data s.pos n.toNat, ?_, scanF_le _ _ _,
        scanF_before _ _ _, scanF_stop _ _ _⟩
      simp [ly_read, h, hn, h0]
  have hneg : ∀ n : Int, n < 0 →
      ly_read (some s) b n =
        (((min (-n).toNat s.pos : Nat) : Int),
         some { s with pos := s.pos - min (-n).toNat s.pos },
         if b then seg s.data (s.pos - min (-n).toNat s.pos) (min (-n).toNat s.pos)
         else []) := by
    intro n hn
    have hn2 : ¬ 0 < n := by omega
    simp [ly_read, h, hn, hn2]
  refine ⟨hzero, hpos, hneg, ?_, ?_⟩
  · intro n
    rcases lt_trichotomy n 0 with hl | he | hg
    · rw [hneg n hl]
      exact Int.natCast_nonneg _
    · rw [he, hzero]
    · obtain ⟨i, hi, _⟩ := hpos n hg
      rw [hi]
      exact Int.natCast_nonneg i
  · intro b2 n t ht
    refine ⟨by simp [ly_read, LY_EINVAL], ?_⟩
    simp [ly_read, ht, LY_EINVAL]

/-- Witness for C1 at the Memory handle over "ab": reading 0 bytes is a
no-op and a backward read never returns a negative count. -/
theorem ly_read_contract_witness :
    wmem.type ≠ LY_IN_TYPE.error ∧
    (ly_read (some wmem) true 0 = (0, some wmem, []) ∧
     0 ≤ (ly_read (some wmem) true (-7)).1) :=
  ⟨by decide, (ly_read_contract wmem true (by decide)).1,
   (ly_read_contract wmem true (by decide)).2.2.2.1 (-7)⟩

/-- C2 counterexample (code bug): on a Path handle, replacing the path by
one that fails to open (`open` returns -1) does not restore the handle:
because the code tests `!fd` instead of `fd == -1`, the failed descriptor
-1 flows into `ly_in_fd`, which treats it as "no replacement", and the
function then closes the handle's own previous descriptor 3, frees its
owned path copy "old", and stores descriptor -1 with the new path. -/
theorem ly_in_filepath_open_failure_mutates :
    ly_in_filepath env_openfail (some wfpath) (some "new") 0 =
      (FPathRet.null, some { wfpath with mfd := -1, mfpath := "new" },
       [Effect.closeFd 3, Effect.freeStr "old"]) ∧
    ({ wfpath with mfd := -1, mfpath := "new" } : ly_in) ≠ wfpath := by
  exact ⟨rfl, by decide⟩

/-- C3 counterexample (code bug): when `ly_in_new_filepath` opens the
path (descriptor 3) but the delegated `ly_in_new_fd` fails (here: empty
file), the duplicated path string is freed but the opened descriptor is
never closed — it leaks. -/
theorem ly_in_new_filepath_descriptor_leak :
    env_emptyfile.openFd "p" = 3 ∧
    ly_in_new_filepath env_emptyfile (some "p") 0 =
      (none, [Effect.logE "Empty input file.", Effect.freeStr "p"]) ∧
    Effect.closeFd 3 ∉ (ly_in_new_filepath env_emptyfile (some "p") 0).2 := by
  refine ⟨rfl, rfl, ?_⟩
  decide

/-- C4: for a Descriptor handle and a replacement descriptor other than
-1, `ly_in_fd` either fails, returning -1 with the handle unmodified and
its old view still mapped, or succeeds with the mapping primitive having
produced a new view, releases the previous view, updates the descriptor,
start, cursor and length fields to the new mapping, and returns the
previous descriptor. -/
theorem ly_in_fd_replace_atomic (env : Env) (s : ly_in) (fd : Int)
    (hs : s.type = LY_IN_TYPE.fd) (hfd : fd ≠ -1) :
    ((ly_in_fd env (some s) fd).1 = -1 ∧
     (ly_in_fd env (some s) fd).2.1 = some s ∧
     Effect.munmapE s.start_addr s.length ∉ (ly_in_fd env (some s) fd).2.2) ∨
    (∃ addr d, env.mmap fd = MmapResult.ok addr d ∧
     (ly_in_fd env (some s) fd).1 = s.mfd ∧
     (ly_in_fd env (some s) fd).2.1 =
       some { s with mfd := fd, start_addr := addr, data := d, pos := 0,
                     length := d.length } ∧
     Effect.munmapE s.start_addr s.length ∈ (ly_in_fd env (some s) fd).2.2) := by
  cases henv : env.mmap fd with
  | fail =>
    left
    refine ⟨?_, ?_, ?_⟩ <;> simp [ly_in_fd, ly_mmap, hs, hfd, henv]
  | empty =>
    left
    refine ⟨?_, ?_, ?_⟩ <;> simp [ly_in_fd, ly_mmap, hs, hfd, henv]
  | ok addr d =>
    right
    refine ⟨addr, d, rfl, ?_, ?_, ?_⟩ <;> simp [ly_in_fd, ly_mmap, hs, hfd, henv]

/-- Witness for C4: replacing descriptor 3 by 5 in an environment where
mapping succeeds takes the success branch of the disjunction. -/
theorem ly_in_fd_replace_atomic_witness :
    wfd.type = LY_IN_TYPE.fd ∧ (5 : Int) ≠ -1 ∧
    (((ly_in_fd env_ok (some wfd) 5).1 = -1 ∧
      (ly_in_fd env_ok (some wfd) 5).2.1 = some wfd ∧
      Effect.munmapE wfd.start_addr wfd.length ∉ (ly_in_fd env_ok (some wfd) 5).2.2) ∨
     (∃ addr d, env_ok.mmap 5 = MmapResult.ok addr d ∧
      (ly_in_fd env_ok (some wfd) 5).1 = wfd.mfd ∧
      (ly_in_fd env_ok (some wfd) 5).2.1 =
        some { wfd with mfd := 5, start_addr := addr, data := d, pos := 0,
                        length := d.length } ∧
      Effect.munmapE wfd.start_addr wfd.length ∈ (ly_in_fd env_ok (some wfd) 5).2.2)) :=
  ⟨rfl, by decide, ly_in_fd_replace_atomic env_ok wfd 5 rfl (by decide)⟩

/-- C5 counterexample: after one forward read on a Memory handle whose
buffer starts at address 100, the memory accessor called with a NULL
replacement returns address 101 — the current reading position — and not
the stored buffer address 100, so "returns the memory buffer" fails for
the Memory accessor as soon as the cursor has moved. -/
theorem ly_in_memory_returns_current_counterexample :
    (ly_read (some wmem) true 1).2.1 = some { wmem with pos := 1 } ∧
    ly_in_memory (some ({ wmem with pos := 1 } : ly_in)) none =
      (some 101, some { wmem with pos := 1 }) ∧
    wmem.start_addr = 100 ∧ (101 : Nat) ≠ 100 := by
  exact ⟨rfl, rfl, rfl, by decide⟩

/-- C5 (amended): each medium accessor called with a null-ish
replacement (-1 descriptor or NULL pointer) performs no mutation of the
handle whatsoever and returns: the stored descriptor, the stored stream,
or the stored path string for the Descriptor, Stream and Path media, and
the current reading position within the buffer (equal to the buffer
start only while the cursor has not moved) for the Memory medium. -/
theorem null_replacement_accessors_pure (env : Env) (s : ly_in) (len : Nat) :
    (s.type = LY_IN_TYPE.fd → ly_in_fd env (some s) (-1) = (s.mfd, some s, [])) ∧
    (s.type = LY_IN_TYPE.file → ly_in_file env (some s) none = (some s.mf, some s, [])) ∧
    (s.type = LY_IN_TYPE.filepath →
      ly_in_filepath env (some s) none len = (FPathRet.path s.mfpath, some s, [])) ∧
    (s.type = LY_IN_TYPE.memory →
      ly_in_memory (some s) none = (some (s.start_addr + s.pos), some s)) := by
  refine ⟨fun h => ?_, fun h => ?_, fun h => ?_, fun h => ?_⟩
  · simp [ly_in_fd, h]
  · simp [ly_in_file, h]
  · simp [ly_in_filepath, h]
  · simp [ly_in_memory, h]

/-- Witness for amended C5 at one concrete handle of each medium. -/
theorem null_replacement_accessors_pure_witness :
    ly_in_fd env_ok (some wfd) (-1) = (wfd.mfd, some wfd, []) ∧
    ly_in_file env_ok (some wfile) none = (some wfile.mf, some wfile, []) ∧
    ly_in_filepath env_ok (some wfpath) none 0 =
      (FPathRet.path wfpath.mfpath, some wfpath, []) ∧
    ly_in_memory (some wmem) none = (some (wmem.start_addr + wmem.pos), some wmem) :=
  ⟨(null_replacement_accessors_pure env_ok wfd 0).1 rfl,
   (null_replacement_accessors_pure env_ok wfile 0).2.1 rfl,
   (null_replacement_accessors_pure env_ok wfpath 0).2.2.1 rfl,
   (null_replacement_accessors_pure env_ok wmem 0).2.2.2 rfl⟩

/-- C6: after any sequence of forward reads whose returned counts total
`k`, an immediately following backward read of `k` bytes with a
destination buffer returns exactly the `k` bytes most recently traversed,
copied in original increasing-address order (the span starting at the
pre-sequence cursor), and moves `current` back by `k` to its
pre-sequence position. -/
theorem forward_backward_roundtrip (s : ly_in) (b : Bool) (ns : List Int)
    (h : s.type ≠ LY_IN_TYPE.error) (hn : ∀ n ∈ ns, 0 ≤ n) :
    ly_read (some (runReads b s ns).1) true (-((runReads b s ns).2 : Int)) =
      (((runReads b s ns).2 : Int), some s, seg s.data s.pos (runReads b s ns).2) := by
  obtain ⟨k, hk⟩ := runReads_fwd b ns s h hn
  rw [hk]
  rcases Nat.eq_zero_or_pos k with hk0 | hkpos
  · subst hk0
    simp [ly_read, seg_zero, h]
  · have hneg : (-(k : Int)) < 0 := by
      exact_mod_cast Int.neg_neg_of_pos (by exact_mod_cast hkpos)
    have hnpos : ¬ (0 : Int) < -(k : Int) := by omega
    have hmin : min k (s.pos + k) = k := min_eq_left (Nat.le_add_left k s.pos)
    simp [ly_read, h, hnpos, hneg, hmin, Nat.add_sub_cancel]

/-- Witness for C6: two forward reads of one byte each on the "ab"
handle, then a backward read of 2, which returns bytes 97 and 98 in
increasing-address order and restores the cursor. -/
theorem forward_backward_roundtrip_witness :
    wmem.type ≠ LY_IN_TYPE.error ∧
    ly_read (some (runReads false wmem [1, 1]).1) true
        (-((runReads false wmem [1, 1]).2 : Int)) =
      (((runReads false wmem [1, 1]).2 : Int), some wmem,
       seg wmem.data wmem.pos (runReads false wmem [1, 1]).2) :=
  ⟨by decide, forward_backward_roundtrip wmem false [1, 1] (by decide) (by decide)⟩

/-- C7: for a valid handle over content of size `L` (no interior NUL,
list length `L`), `ly_in_reset` sets `current = start` and returns
success; reset is idempotent; and a reset followed by a forward read of
`L` bytes returns exactly the original content. -/
theorem ly_in_reset_contract (s : ly_in) (L : Nat) (h : s.type ≠ LY_IN_TYPE.error)
    (hL : s.data.length = L) (hz : ∀ x ∈ s.data, x ≠ 0) :
    ly_in_reset (some s) = (LY_SUCCESS, some { s with pos := 0 }) ∧
    ly_in_reset (some ({ s with pos := 0 } : ly_in)) =
      (LY_SUCCESS, some { s with pos := 0 }) ∧
    ly_read (some ({ s with pos := 0 } : ly_in)) true (L : Int) =
      ((L : Int), some { s with pos := L }, s.data) := by
  refine ⟨by simp [ly_in_reset], by simp [ly_in_reset], ?_⟩
  have hbyte : ∀ j < L, byteAt s.data (0 + j) ≠ 0 := by
    intro j hj
    have hj2 : j < s.data.length := by omega
    rw [Nat.zero_add]
    have hget : byteAt s.data j = s.data[j] := by
      simp [byteAt, List.getD, List.getElem?_eq_getElem hj2]
    rw [hget]
    exact hz _ (List.getElem_mem hj2)
  rcases Nat.eq_zero_or_pos L with hL0 | hLpos
  · have hd : s.data = [] := List.length_eq_zero.mp (by omega)
    subst hL0
    simp [ly_read, hd, h]
  · have hcount : (0 : Int) < (L : Int) := by exact_mod_cast hLpos
    have h0 : ¬ byteAt s.data 0 = 0 := by
      have := hbyte 0 hLpos
      simpa using this
    have hscan : scanF s.data 0 L = L := scanF_all _ _ _ hbyte
    have hseg : seg s.data 0 L = s.data := by
      have := seg_zero_length s.data
      rwa [hL] at this
    simp [ly_read, h, hcount, h0, hscan, hseg]

/-- Witness for C7 at the NUL-free two-byte Memory handle. -/
theorem ly_in_reset_contract_witness :
    wbin.type ≠ LY_IN_TYPE.error ∧ wbin.data.length = 2 ∧
    (ly_in_reset (some wbin) = (LY_SUCCESS, some { wbin with pos := 0 }) ∧
     ly_in_reset (some ({ wbin with pos := 0 } : ly_in)) =
       (LY_SUCCESS, some { wbin with pos := 0 }) ∧
     ly_read (some ({ wbin with pos := 0 } : ly_in)) true ((2 : Nat) : Int) =
       (((2 : Nat) : Int), some { wbin with pos := 2 }, wbin.data)) :=
  ⟨by decide, by decide,
   ly_in_reset_contract wbin 2 (by decide) (by decide) (by decide)⟩

/-- C8: `ly_in_new_fd` fails — producing no handle and reporting to the
logging sink — whenever the descriptor is negative, the mapping fails,
or the mapped result is empty (empty input is rejected rather than
treated as valid empty content). -/
theorem ly_in_new_fd_failure (env : Env) (fd : Int)
    (h : fd < 0 ∨ env.mmap fd = MmapResult.fail ∨ env.mmap fd = MmapResult.empty) :
    (ly_in_new_fd env fd).1 = none ∧
    ∃ m, Effect.logE m ∈ (ly_in_new_fd env fd).2 := by
  by_cases hneg : fd < 0
  · refine ⟨by simp [ly_in_new_fd, hneg], "Invalid argument.", ?_⟩
    simp [ly_in_new_fd, hneg, logArg]
  · rcases h with h | h | h
    · omega
    · refine ⟨by simp [ly_in_new_fd, hneg, ly_mmap, h], "mmap failed.", ?_⟩
      simp [ly_in_new_fd, hneg, ly_mmap, h]
    · refine ⟨by simp [ly_in_new_fd, hneg, ly_mmap, h], "Empty input file.", ?_⟩
      simp [ly_in_new_fd, hneg, ly_mmap, h]

/-- Witness for C8: descriptor 7 maps to an empty file, so construction
fails with a log message and no handle. -/
theorem ly_in_new_fd_failure_witness :
    ((7 : Int) < 0 ∨ env_emptyfile.mmap 7 = MmapResult.fail ∨
      env_emptyfile.mmap 7 = MmapResult.empty) ∧
    ((ly_in_new_fd env_emptyfile 7).1 = none ∧
     ∃ m, Effect.logE m ∈ (ly_in_new_fd env_emptyfile 7).2) :=
  ⟨Or.inr (Or.inr rfl),
   ly_in_new_fd_failure env_emptyfile 7 (Or.inr (Or.inr rfl))⟩

/-- C9: the destructor unmaps the current view of every mapped medium and
then releases resources as gated by the destroy flag: with the flag set,
Memory frees its buffer, Stream closes the stream, Descriptor closes the
descriptor, and Path closes its private descriptor and frees its private
path copy; with the flag clear, Descriptor and Stream resources are left
untouched while Path's private descriptor and path copy are released
regardless; the handle record itself is always freed. -/
theorem ly_in_free_effects (s : ly_in) :
    (s.type = LY_IN_TYPE.fd →
      ly_in_free (some s) true =
        [Effect.munmapE s.start_addr s.length, Effect.closeFd s.mfd,
         Effect.freeHandle] ∧
      ly_in_free (some s) false =
        [Effect.munmapE s.start_addr s.length, Effect.freeHandle]) ∧
    (s.type = LY_IN_TYPE.file →
      ly_in_free (some s) true =
        [Effect.munmapE s.start_addr s.length, Effect.fcloseE s.mf,
         Effect.freeHandle] ∧
      ly_in_free (some s) false =
        [Effect.munmapE s.start_addr s.length, Effect.freeHandle]) ∧
    (s.type = LY_IN_TYPE.filepath →
      ly_in_free (some s) true =
        [Effect.munmapE s.start_addr s.length, Effect.closeFd s.mfd,
         Effect.freeStr s.mfpath, Effect.freeHandle] ∧
      ly_in_free (some s) false =
        [Effect.munmapE s.start_addr s.length, Effect.closeFd s.mfd,
         Effect.freeStr s.mfpath, Effect.freeHandle]) ∧
    (s.type = LY_IN_TYPE.memory →
      ly_in_free (some s) true = [Effect.freeBuf s.start_addr, Effect.freeHandle] ∧
      ly_in_free (some s) false = [Effect.freeHandle]) := by
  refine ⟨fun h => ⟨?_, ?_⟩, fun h => ⟨?_, ?_⟩, fun h => ⟨?_, ?_⟩, fun h => ⟨?_, ?_⟩⟩ <;>
    simp [ly_in_free, h]

/-- Witness for C9 at one concrete handle of each medium, with both
values of the destroy flag. -/
theorem ly_in_free_effects_witness :
    (ly_in_free (some wfd) true =
       [Effect.munmapE wfd.start_addr wfd.length, Effect.closeFd wfd.mfd,
        Effect.freeHandle] ∧
     ly_in_free (some wfd) false =
       [Effect.munmapE wfd.start_addr wfd.length, Effect.freeHandle]) ∧
    (ly_in_free (some wfile) true =
       [Effect.munmapE wfile.start_addr wfile.length, Effect.fcloseE wfile.mf,
        Effect.freeHandle] ∧
     ly_in_free (some wfile) false =
       [Effect.munmapE wfile.start_addr wfile.length, Effect.freeHandle]) ∧
    (ly_in_free (some wfpath) true =
       [Effect.munmapE wfpath.start_addr wfpath.length, Effect.closeFd wfpath.mfd,
        Effect.freeStr wfpath.mfpath, Effect.freeHandle] ∧
     ly_in_free (some wfpath) false =
       [Effect.munmapE wfpath.start_addr wfpath.length, Effect.closeFd wfpath.mfd,
        Effect.freeStr wfpath.mfpath, Effect.freeHandle]) ∧
    (ly_in_free (some wmem) true =
       [Effect.freeBuf wmem.start_addr, Effect.freeHandle] ∧
     ly_in_free (some wmem) false = [Effect.freeHandle]) :=
  ⟨(ly_in_free_effects wfd).1 rfl, (ly_in_free_effects wfile).2.1 rfl,
   (ly_in_free_effects wfpath).2.2.1 rfl, (ly_in_free_effects wmem).2.2.2 rfl⟩

/-- C10: calling the destructor with a NULL handle, under either value of
the destroy flag, is a silent no-op: no resource action and no log
message is performed. -/
theorem ly_in_free_null_noop : ∀ destroy : Bool, ly_in_free none destroy = [] := by
  intro destroy
  rfl
